import Mathlib

/-!
Shallow embedding of the user-daemon session core found in package
`trafficmgr` (file `src/unnamed/part_000`).  Pure control flow of the Go
functions is translated into Lean functions over explicit inputs: results
of gRPC calls become values of `Code`-indexed sum types, Go maps become
association lists or lookup functions, and side effects (logging, cache
deletion, connection close) become fields of explicit trace records.
-/

/-- gRPC status codes that the session core inspects (`google.golang.org/grpc/codes`).
`otherCode` stands for any code not given a designated meaning by the code. -/
inductive Code where
  | ok
  | notFound
  | unavailable
  | unimplemented
  | failedPrecondition
  | deadlineExceeded
  | otherCode
deriving DecidableEq, Repr

/-- The distinguished error value `ErrSessionExpired` declared at line 766 of
the source; `logOnly` is not a Go value but marks the branch where the error
is merely logged. -/
inductive SessionError where
  | sessionExpired
deriving DecidableEq, Repr

/-- Outcome of one invocation of `session.Remain` (source lines 473-486):
`result` is the returned Go `error` (`some .sessionExpired` or `nil`), and
`loggedTransient` records whether the `dlog.Errorf` branch ran. -/
structure RemainOutcome where
  result : Option SessionError
  loggedTransient : Bool
deriving DecidableEq, Repr

/-- Translation of `session.Remain` (source lines 473-486).  The input is the result of the
manager's `Remain` RPC: `none` when the call succeeded, `some c` when it
failed with gRPC status code `c`. -/
def Remain (callErr : Option Code) : RemainOutcome :=
  match callErr with
  | none => { result := none, loggedTransient := false }
  | some c =>
    if c = Code.notFound ∨ c = Code.unavailable then
      { result := some SessionError.sessionExpired, loggedTransient := false }
    else
      { result := none, loggedTransient := true }

/-- One tick of the `remainLoop` select (source lines 790-794): the loop
returns the error (stopping) iff `s.self.Remain` returned a non-nil error;
otherwise it keeps ticking.  Returns `(continueTicking, loopReturn)`. -/
def remainLoopTick (remainResult : Option SessionError) : Bool × Option SessionError :=
  match remainResult with
  | some e => (false, some e)
  | none => (true, none)

/-- Actions performed by the deferred epilogue of `remainLoop`
(source lines 770-784), in order. -/
inductive EpAction where
  | departCall
  | deleteCache
  | closeConn
deriving DecidableEq, Repr

/-- Timeout, in seconds, of the detached context used by the `remainLoop`
epilogue (source line 773: `context.WithTimeout(c, 3*time.Second)`). -/
def epilogueDetachedTimeoutSeconds : Nat := 3

/-- Deferred epilogue of `remainLoop` (source lines 770-784), run when the
loop exits (in particular on caller-context cancellation).  The input is the
result of the `Depart` call made on the detached context; the output is the
ordered list of actions taken.  Depart failure and cache-deletion failure
are only logged. -/
def remainLoopEpilogue (departErr : Option Code) : List EpAction :=
  [EpAction.departCall]
    ++ (match departErr with
        | some _ => []
        | none => [EpAction.deleteCache])
    ++ [EpAction.closeConn]

/-- The legacy workload kinds used when the traffic-manager does not
implement `GetKnownWorkloadKinds` (source lines 1123-1127). -/
inductive WlKind where
  | deployment
  | replicaSet
  | statefulSet
  | rollout
  | unspecified
deriving DecidableEq, Repr

def legacyKinds : List WlKind :=
  [WlKind.deployment, WlKind.replicaSet, WlKind.statefulSet]

/-- The `GetKnownWorkloadKinds` handling at the top of `localWorkloadsWatcher`
(source lines 1117-1128): on a failed call with code `Unimplemented` the
legacy kind set is used and the watcher proceeds; any other failure code is
returned as the watcher's error. -/
def knownWorkloadKinds (callResult : Except Code (List WlKind)) : Except Code (List WlKind) :=
  match callResult with
  | Except.ok ks => Except.ok ks
  | Except.error c =>
    if c ≠ Code.unimplemented then
      Except.error c
    else
      Except.ok legacyKinds

/-- Semantic version of the traffic manager as parsed by `connectMgr`
(only the fields `ensureWatchers` consults). -/
structure SemVer where
  major : Nat
  minor : Nat
  patch : Nat
deriving DecidableEq, Repr

/-- The two watcher realizations started by `ensureWatchers`. -/
inductive WatcherKind where
  | remoteWatcher
  | localWatcher
deriving DecidableEq, Repr

/-- Translation of `ensureWatchers` (source lines 677-710): `existing` is the set of
namespace keys already present in `s.workloads` (for which no watcher is
started); for every other requested namespace a watcher is started, remote
when `v.Major > 2 || v.Major == 2 && v.Minor > 20` (line 681), local
otherwise.  Returns the list of `(namespace, watcher-kind)` started. -/
def ensureWatchers (existing : List String) (v : SemVer) (namespaces : List String) :
    List (String × WatcherKind) :=
  let managerHasWatcherSupport := v.major > 2 || (v.major == 2 && v.minor > 20)
  namespaces.filterMap fun ns =>
    if ns ∈ existing then
      none
    else
      some (ns, if managerHasWatcherSupport then WatcherKind.remoteWatcher else WatcherKind.localWatcher)

/-- Membership characterization of `ensureWatchers`: a `(namespace, kind)`
pair is started iff the namespace was requested, had no watcher yet, and the
kind is selected by the manager-version test of source line 681. -/
theorem mem_ensureWatchers (existing : List String) (v : SemVer) (nss : List String)
    (ns : String) (k : WatcherKind) :
    (ns, k) ∈ ensureWatchers existing v nss ↔
      ns ∈ nss ∧ ns ∉ existing ∧
        k = (if v.major > 2 || (v.major == 2 && v.minor > 20) then WatcherKind.remoteWatcher
             else WatcherKind.localWatcher) := by
  simp only [ensureWatchers, List.mem_filterMap]
  constructor
  · rintro ⟨a, hmem, ha⟩
    by_cases hc : a ∈ existing
    · simp [hc] at ha
    · rw [if_neg hc, Option.some_inj] at ha
      have h1 : a = ns := congrArg Prod.fst ha
      have h2 := congrArg Prod.snd ha
      subst h1
      exact ⟨hmem, hc, h2.symm⟩
  · rintro ⟨hmem, hc, rfl⟩
    exact ⟨ns, hmem, by rw [if_neg hc]⟩

/-- C1: on a `Remain` heartbeat, a manager-call failure with code NotFound or
Unavailable makes `session.Remain` return the distinguished `ErrSessionExpired`
(stopping the remain loop); any other failure code is only logged,
`session.Remain` returns nil, and the loop continues ticking. -/
theorem remain_error_handling (c : Code) :
    (c = Code.notFound ∨ c = Code.unavailable →
      Remain (some c) = { result := some SessionError.sessionExpired, loggedTransient := false } ∧
      remainLoopTick (Remain (some c)).result = (false, some SessionError.sessionExpired)) ∧
    (¬(c = Code.notFound ∨ c = Code.unavailable) →
      Remain (some c) = { result := none, loggedTransient := true } ∧
      remainLoopTick (Remain (some c)).result = (true, none)) := by
  constructor
  · intro h
    simp [Remain, h, remainLoopTick]
  · intro h
    simp [Remain, h, remainLoopTick]

/-- Witness for `remain_error_handling` at the concrete codes Unavailable and
DeadlineExceeded. -/
theorem remain_error_handling_witness :
    Remain (some Code.unavailable) =
      { result := some SessionError.sessionExpired, loggedTransient := false } ∧
    Remain (some Code.deadlineExceeded) = { result := none, loggedTransient := true } :=
  ⟨((remain_error_handling Code.unavailable).1 (Or.inr rfl)).1,
   ((remain_error_handling Code.deadlineExceeded).2 (by decide)).1⟩

/-- C5: the remain-loop shutdown sequence uses a detached 3-second context,
calls depart, deletes the cached session token iff depart succeeded, and
closes the manager connection in all cases (with the close coming last). -/
theorem remain_loop_epilogue_spec (departErr : Option Code) :
    epilogueDetachedTimeoutSeconds = 3 ∧
    (EpAction.deleteCache ∈ remainLoopEpilogue departErr ↔ departErr = none) ∧
    (remainLoopEpilogue departErr).head? = some EpAction.departCall ∧
    (remainLoopEpilogue departErr).getLast? = some EpAction.closeConn := by
  refine ⟨rfl, ?_, ?_, ?_⟩ <;> cases departErr <;> simp [remainLoopEpilogue]

/-- C10: `localWorkloadsWatcher` treats an `Unimplemented` response from
get-known-workload-kinds as the legacy kind set {Deployment, ReplicaSet,
StatefulSet} and proceeds without error; any other failure code becomes the
watcher's error. -/
theorem known_workload_kinds_unimplemented (c : Code) :
    (c = Code.unimplemented →
      knownWorkloadKinds (Except.error c) = Except.ok legacyKinds) ∧
    (c ≠ Code.unimplemented →
      knownWorkloadKinds (Except.error c) = Except.error c) := by
  constructor
  · intro h
    simp [knownWorkloadKinds, h]
  · intro h
    simp [knownWorkloadKinds, h]

/-- Witness for `known_workload_kinds_unimplemented` at Unimplemented and at
Internal-style other codes. -/
theorem known_workload_kinds_unimplemented_witness :
    knownWorkloadKinds (Except.error Code.unimplemented) = Except.ok legacyKinds ∧
    knownWorkloadKinds (Except.error Code.otherCode) = Except.error Code.otherCode :=
  ⟨(known_workload_kinds_unimplemented Code.unimplemented).1 rfl,
   (known_workload_kinds_unimplemented Code.otherCode).2 (by decide)⟩

/-- C6: `ensureWatchers` starts, for every namespace that needs a watcher,
the remote stream-driven watcher iff the manager version satisfies
major > 2 or (major = 2 and minor > 20), and the local informer-based
watcher otherwise. -/
theorem ensure_watchers_version_select (existing : List String) (v : SemVer)
    (namespaces : List String) (ns : String)
    (hns : ns ∈ namespaces) (hnew : ns ∉ existing) :
    ((ns, WatcherKind.remoteWatcher) ∈ ensureWatchers existing v namespaces ↔
      (v.major > 2 ∨ (v.major = 2 ∧ v.minor > 20))) ∧
    ((ns, WatcherKind.localWatcher) ∈ ensureWatchers existing v namespaces ↔
      ¬(v.major > 2 ∨ (v.major = 2 ∧ v.minor > 20))) := by
  have hsupp : (v.major > 2 || (v.major == 2 && v.minor > 20)) = true ↔
      (v.major > 2 ∨ (v.major = 2 ∧ v.minor > 20)) := by
    simp
  rw [mem_ensureWatchers, mem_ensureWatchers]
  by_cases hs : (v.major > 2 || (v.major == 2 && v.minor > 20)) = true
  · rw [if_pos hs]
    simp [hns, hnew, hsupp.mp hs]
  · rw [if_neg hs]
    rw [← hsupp]
    simp [hns, hnew, hs]

/-- Witness for `ensure_watchers_version_select`: with manager version 2.21.0
the namespace `default` gets the remote watcher, and with 2.20.3 the local
watcher. -/
theorem ensure_watchers_version_select_witness :
    ((("default", WatcherKind.remoteWatcher) ∈
        ensureWatchers [] ⟨2, 21, 0⟩ ["default"]) ↔ (2 > 2 ∨ (2 = 2 ∧ 21 > 20))) ∧
    ((("default", WatcherKind.localWatcher) ∈
        ensureWatchers [] ⟨2, 20, 3⟩ ["default"]) ↔ ¬(2 > 2 ∨ (2 = 2 ∧ 20 > 20))) :=
  ⟨(ensure_watchers_version_select [] ⟨2, 21, 0⟩ ["default"] "default"
      (by decide) (by decide)).1,
   (ensure_watchers_version_select [] ⟨2, 20, 3⟩ ["default"] "default"
      (by decide) (by decide)).2⟩

/-- Outcome of the single liveness probe made by `connectMgr` on a cached
session token (source lines 400-412): `err` is the result of the
`mClient.Remain` call, `ctxExpired` reflects the `ctx.Err() != nil` check
made after a successful call (a probe whose deadline elapsed is a failed
probe; the source returns `ctx.Err()` there). -/
structure ProbeOutcome where
  err : Option Code
  ctxExpired : Bool
deriving DecidableEq, Repr

/-- Errors that can abort the token-acquisition step of `connectMgr`. -/
inductive ConnectMgrErr where
  | ctxErr
  | arriveFailed (c : Code)
  | saveFailed
deriving DecidableEq, Repr

/-- Trace of the token-acquisition step of `connectMgr`:
whether `ArriveAsClient` was called, what token (if any) was saved to the
user cache, and the session token the new session ends up with. -/
structure ConnectMgrTrace where
  arriveCalled : Bool
  savedToken : Option String
  result : Except ConnectMgrErr String
deriving Repr

/-- The `si == nil` half of `connectMgr`'s token acquisition (source lines
414-432): call `ArriveAsClient`; on failure return its error; on success
save the fresh token to the user cache and use it. -/
def connectMgrArrive (arrive : Except Code String) (saveOk : Bool) : ConnectMgrTrace :=
  match arrive with
  | Except.error c =>
    { arriveCalled := true, savedToken := none,
      result := Except.error (ConnectMgrErr.arriveFailed c) }
  | Except.ok t =>
    if saveOk then
      { arriveCalled := true, savedToken := some t, result := Except.ok t }
    else
      { arriveCalled := true, savedToken := some t,
        result := Except.error ConnectMgrErr.saveFailed }

/-- Token-acquisition step of `connectMgr` (source lines 394-432).
`cached` is the token found by `LoadSessionInfoFromUserCache` (when any);
`probe` is the outcome of the liveness `Remain` call made on a cached token;
`arrive` is the outcome of `ArriveAsClient` (the fresh token, or a failure
code); `saveOk` is whether `SaveSessionInfoToUserCache` succeeds.  A failed
probe sets `si = nil`, which routes into `connectMgrArrive`. -/
def connectMgrToken (cached : Option String) (probe : ProbeOutcome)
    (arrive : Except Code String) (saveOk : Bool) : ConnectMgrTrace :=
  match cached with
  | some t =>
    match probe.err with
    | none =>
      if probe.ctxExpired then
        { arriveCalled := false, savedToken := none,
          result := Except.error ConnectMgrErr.ctxErr }
      else
        { arriveCalled := false, savedToken := none, result := Except.ok t }
    | some _ => connectMgrArrive arrive saveOk
  | none => connectMgrArrive arrive saveOk

/-- C2: in `connectMgr`, a cached token whose liveness probe succeeds is
reused and `ArriveAsClient` is never called; if the probe fails with any
error, `ArriveAsClient` is called, and a successfully obtained fresh token
is saved to the user cache and becomes the session token. -/
theorem connect_mgr_token_reuse (t : String) (probe : ProbeOutcome)
    (arrive : Except Code String) (saveOk : Bool) :
    (probe.err = none → probe.ctxExpired = false →
      connectMgrToken (some t) probe arrive saveOk =
        { arriveCalled := false, savedToken := none, result := Except.ok t }) ∧
    (∀ c, probe.err = some c →
      (connectMgrToken (some t) probe arrive saveOk).arriveCalled = true ∧
      (∀ t₂, arrive = Except.ok t₂ → saveOk = true →
        (connectMgrToken (some t) probe arrive saveOk).savedToken = some t₂ ∧
        (connectMgrToken (some t) probe arrive saveOk).result = Except.ok t₂)) := by
  constructor
  · intro he hc
    simp [connectMgrToken, he, hc]
  · intro c he
    constructor
    · simp only [connectMgrToken, he, connectMgrArrive]
      cases arrive with
      | error c₂ => simp
      | ok t₂ => cases saveOk <;> simp
    · intro t₂ ha hs
      subst hs
      simp [connectMgrToken, he, ha, connectMgrArrive]

/-- Witness for `connect_mgr_token_reuse`: a live cached token `tok` is
reused without arrival, and a failed probe leads to arrival, save, and use
of the fresh token `fresh`. -/
theorem connect_mgr_token_reuse_witness :
    connectMgrToken (some "tok") ⟨none, false⟩ (Except.ok "fresh") true =
      { arriveCalled := false, savedToken := none, result := Except.ok "tok" } ∧
    (connectMgrToken (some "tok") ⟨some Code.notFound, false⟩ (Except.ok "fresh") true).savedToken
        = some "fresh" ∧
    (connectMgrToken (some "tok") ⟨some Code.notFound, false⟩ (Except.ok "fresh") true).result
        = Except.ok "fresh" :=
  ⟨(connect_mgr_token_reuse "tok" ⟨none, false⟩ (Except.ok "fresh") true).1 rfl rfl,
   ((connect_mgr_token_reuse "tok" ⟨some Code.notFound, false⟩ (Except.ok "fresh") true).2
      Code.notFound rfl).2 "fresh" rfl rfl⟩

/-- Result of one `rd.Connect` call in `connectRootDaemon`
(source lines 1038-1064): a transport error, a status whose
`OutboundConfig` is nil, one whose `OutboundConfig.Session` is nil, or a
status carrying the root daemon's session id. -/
inductive RootConnectResult where
  | connectErr
  | missingOutboundConfig
  | missingSession
  | gotSession (sid : String)
deriving DecidableEq, Repr

/-- Errors returned by the out-of-process branch of `connectRootDaemon`. -/
inductive RootDaemonErr where
  | connectFailed
  | noSession
  | reconnectFailed
  | disconnectFailed
deriving DecidableEq, Repr

/-- Trace of the out-of-process retry loop of `connectRootDaemon`: number of
`Connect` calls, number of `Disconnect` calls, and the final result. -/
structure RootConnectTrace where
  connects : Nat
  disconnects : Nat
  result : Except RootDaemonErr String
deriving Repr

/-- The out-of-process retry loop of `connectRootDaemon` (source lines
1038-1064).  `localId` is `nc.Session.SessionId`; `r1` and `r2` are the
results of the first and (when reached) second `Connect` calls;
`disconnectOk` is whether the intervening `Disconnect` succeeds.  The Go
loop runs at most two attempts: a missing `OutboundConfig` or `Session` is
returned as an immediate error, a session-id mismatch at attempt 1 leads to
`Disconnect` and one more attempt, and a mismatch at attempt 2 is fatal. -/
def connectRootDaemon (localId : String) (r1 r2 : RootConnectResult)
    (disconnectOk : Bool) : RootConnectTrace :=
  match r1 with
  | RootConnectResult.connectErr =>
    { connects := 1, disconnects := 0, result := Except.error RootDaemonErr.connectFailed }
  | RootConnectResult.missingOutboundConfig =>
    { connects := 1, disconnects := 0, result := Except.error RootDaemonErr.noSession }
  | RootConnectResult.missingSession =>
    { connects := 1, disconnects := 0, result := Except.error RootDaemonErr.noSession }
  | RootConnectResult.gotSession sid =>
    if sid = localId then
      { connects := 1, disconnects := 0, result := Except.ok sid }
    else if disconnectOk then
      match r2 with
      | RootConnectResult.connectErr =>
        { connects := 2, disconnects := 1, result := Except.error RootDaemonErr.connectFailed }
      | RootConnectResult.missingOutboundConfig =>
        { connects := 2, disconnects := 1, result := Except.error RootDaemonErr.noSession }
      | RootConnectResult.missingSession =>
        { connects := 2, disconnects := 1, result := Except.error RootDaemonErr.noSession }
      | RootConnectResult.gotSession sid₂ =>
        if sid₂ = localId then
          { connects := 2, disconnects := 1, result := Except.ok sid₂ }
        else
          { connects := 2, disconnects := 1,
            result := Except.error RootDaemonErr.reconnectFailed }
    else
      { connects := 1, disconnects := 1, result := Except.error RootDaemonErr.disconnectFailed }

/-- C3 counterexample: the claim says a missing `OutboundConfig` (or missing
`Session`) is retried exactly once (disconnect + reconnect) before being
fatal; in the code (source lines 1046-1050) it is fatal immediately.  Here
the first `Connect` returns a status with no `OutboundConfig` and a retry
would have succeeded (the second result carries the matching id), yet the
code performs no disconnect, makes no second attempt, and fails. -/
theorem connect_root_daemon_missing_config_not_retried :
    (connectRootDaemon "s1" RootConnectResult.missingOutboundConfig
        (RootConnectResult.gotSession "s1") true).disconnects = 0 ∧
    (connectRootDaemon "s1" RootConnectResult.missingOutboundConfig
        (RootConnectResult.gotSession "s1") true).connects = 1 ∧
    (connectRootDaemon "s1" RootConnectResult.missingOutboundConfig
        (RootConnectResult.gotSession "s1") true).result =
      Except.error RootDaemonErr.noSession :=
  ⟨rfl, rfl, rfl⟩

/-- C3 (amended): a session-id mismatch from the out-of-process root daemon
leads to exactly one `Disconnect` followed by exactly one more `Connect`; a
second mismatch is fatal, while a matching second id succeeds.  A returned
status whose `OutboundConfig` or `OutboundConfig.Session` is missing is
fatal immediately, with no disconnect and no retry. -/
theorem connect_root_daemon_retry (localId sid₁ : String) (r₂ : RootConnectResult)
    (hmis : sid₁ ≠ localId) :
    ((connectRootDaemon localId (RootConnectResult.gotSession sid₁) r₂ true).disconnects = 1 ∧
     (connectRootDaemon localId (RootConnectResult.gotSession sid₁) r₂ true).connects = 2) ∧
    (∀ sid₂, sid₂ ≠ localId →
      (connectRootDaemon localId (RootConnectResult.gotSession sid₁)
          (RootConnectResult.gotSession sid₂) true).result =
        Except.error RootDaemonErr.reconnectFailed) ∧
    ((connectRootDaemon localId (RootConnectResult.gotSession sid₁)
        (RootConnectResult.gotSession localId) true).result = Except.ok localId) ∧
    ((connectRootDaemon localId RootConnectResult.missingOutboundConfig r₂ true).disconnects = 0 ∧
     (connectRootDaemon localId RootConnectResult.missingOutboundConfig r₂ true).connects = 1 ∧
     (connectRootDaemon localId RootConnectResult.missingOutboundConfig r₂ true).result =
       Except.error RootDaemonErr.noSession) ∧
    ((connectRootDaemon localId RootConnectResult.missingSession r₂ true).disconnects = 0 ∧
     (connectRootDaemon localId RootConnectResult.missingSession r₂ true).connects = 1 ∧
     (connectRootDaemon localId RootConnectResult.missingSession r₂ true).result =
       Except.error RootDaemonErr.noSession) := by
  refine ⟨⟨?_, ?_⟩, ?_, ?_, ⟨rfl, rfl, rfl⟩, ⟨rfl, rfl, rfl⟩⟩
  · cases r₂ <;>
      simp [connectRootDaemon, hmis, apply_ite RootConnectTrace.disconnects]
  · cases r₂ <;>
      simp [connectRootDaemon, hmis, apply_ite RootConnectTrace.connects]
  · intro sid₂ hmis₂
    simp [connectRootDaemon, hmis, hmis₂]
  · simp [connectRootDaemon, hmis]

/-- Witness for `connect_root_daemon_retry` with local id `a` and a first
root-daemon id `b`. -/
theorem connect_root_daemon_retry_witness :
    (connectRootDaemon "a" (RootConnectResult.gotSession "b")
        (RootConnectResult.gotSession "a") true).disconnects = 1 ∧
    (connectRootDaemon "a" (RootConnectResult.gotSession "b")
        (RootConnectResult.gotSession "a") true).result = Except.ok "a" :=
  ⟨((connect_root_daemon_retry "a" "b" (RootConnectResult.gotSession "a")
      (by decide)).1).1,
   ((connect_root_daemon_retry "a" "b" (RootConnectResult.gotSession "a")
      (by decide)).2).2.1⟩

/-- Filter flag values of the `rpc.ListRequest_Filter` enum.
Modelled from the spec: the generated protobuf enum is not under src/; the
spec's filter algebra (flags EVERYTHING, INTERCEPTS, INGESTS,
INSTALLED_AGENTS, with `match` starting at EVERYTHING and clearing
individual bits) requires the three selective flags to be distinct bits
with EVERYTHING their union. -/
def INTERCEPTS : Nat := 1

def INSTALLED_AGENTS : Nat := 2

def INGESTS : Nat := 4

def EVERYTHING : Nat := 7

/-- The Go `filterMatch &= ^FLAG` (a two's-complement and-not) restricted to
the flag domain: `filterMatch` starts at EVERYTHING and only ever loses
bits, so and-ing with `EVERYTHING ^^^ flag` is the same operation. -/
def clearFlag (fm flag : Nat) : Nat := fm &&& (EVERYTHING ^^^ flag)

/-- Modelled from the spec: the `workload.State` enum and its `String()`
rendering live in `pkg/workload` outside src/; the spec gives the value set
{Available, Progressing, Failed, NotFound, ...}. -/
inductive WState where
  | available
  | progressing
  | failed
  | notFound
  | unknownState
deriving DecidableEq, Repr

/-- Modelled from the spec: `state.name()`, the rendering used for
`NotInterceptableReason`. -/
def stateName : WState → String
  | WState.available => "Available"
  | WState.progressing => "Progressing"
  | WState.failed => "Failed"
  | WState.notFound => "NotFound"
  | WState.unknownState => "Unknown"

/-- Modelled from the spec: the protobuf `manager.WorkloadInfo_Kind.String()`
names used to build `WorkloadResourceType` and the snapshot map key (the
spec's scenario 1 shows `kind:"DEPLOYMENT"`). -/
def rpcKindName : WlKind → String
  | WlKind.deployment => "DEPLOYMENT"
  | WlKind.replicaSet => "REPLICASET"
  | WlKind.statefulSet => "STATEFULSET"
  | WlKind.rollout => "ROLLOUT"
  | WlKind.unspecified => "UNSPECIFIED"

/-- Modelled from the spec: agent-state values {None, Installing, Installed,
Failed}; carried by entries but not consulted by the snapshot claims. -/
inductive AgentState where
  | noAgent
  | installing
  | installed
  | agentFailed
deriving DecidableEq, Repr

/-- Go `workloadInfoKey` (source lines 74-77). -/
structure WorkloadInfoKey where
  kind : WlKind
  name : String
deriving DecidableEq, Repr

/-- Go `workloadInfo` (source lines 79-84). -/
structure WorkloadEntry where
  uid : String
  state : WState
  agentState : AgentState := AgentState.noAgent
  interceptClients : List String := []
deriving DecidableEq, Repr

/-- The fields of `rpc.WorkloadInfo` assigned by `getInfosForWorkloads`
(source lines 601-621).  The intercept/ingest payloads are opaque to the
snapshot logic and modelled as strings. -/
structure RpcWorkloadInfo where
  name : String
  nspace : String
  workloadResourceType : String
  uid : String
  notInterceptableReason : String := ""
  interceptInfos : List String := []
  ingestInfos : List String := []
  agentVersion : String := ""
deriving DecidableEq, Repr

/-- The session's `workloads` field, `namespace -> (key -> entry)`
(source line 115), with both Go maps as association lists whose list order
is the (arbitrary) map iteration order. -/
abbrev WorkloadsMap := List (String × List (WorkloadInfoKey × WorkloadEntry))

/-- One `(kind, name, namespace, info)` tuple passed to the closure by
`eachWorkload`. -/
structure WlRow where
  kind : WlKind
  name : String
  nspace : String
  info : WorkloadEntry
deriving DecidableEq, Repr

/-- Translation of `session.eachWorkload` (source lines 1082-1092): iterate the given
namespaces, and for each namespace present in the workloads map, yield each
of its entries. -/
def eachWorkload (wls : WorkloadsMap) (namespaces : List String) : List WlRow :=
  namespaces.flatMap fun ns =>
    match wls.find? (fun p => p.1 == ns) with
    | none => []
    | some p =>
      p.2.map fun ke => { kind := ke.1.kind, name := ke.1.name, nspace := ns, info := ke.2 }

/-- The `filterMatch` computation of `getInfosForWorkloads` (source lines
612-621): start at EVERYTHING, clear INTERCEPTS when the intercept map has
no entry for the workload name, INGESTS when the ingest map has none, and
INSTALLED_AGENTS when the agent-version map has none. -/
def filterMatchOf (iHas gHas sHas : Bool) : Nat :=
  let fm := EVERYTHING
  let fm := if iHas then fm else clearFlag fm INTERCEPTS
  let fm := if gHas then fm else clearFlag fm INGESTS
  if sHas then fm else clearFlag fm INSTALLED_AGENTS

/-- The `"kind:name.namespace"` map key built at source line 625. -/
def wlKeyString (kind name ns : String) : String :=
  kind ++ ":" ++ name ++ "." ++ ns

/-- The key a `RpcWorkloadInfo` renders to. -/
def keyOf (wi : RpcWorkloadInfo) : String :=
  wlKeyString wi.workloadResourceType wi.name wi.nspace

/-- Per-entry body of the `eachWorkload` closure inside
`getInfosForWorkloads` (source lines 599-626): build the exported
`rpc.WorkloadInfo` (with `NotInterceptableReason` set for non-Available
states), compute `filterMatch`, and decide emission: the entry is dropped
iff `filter != 0 && filter & filterMatch == 0`. -/
def mkWlInfo (iMap gMap : String → Option (List String)) (sMap : String → Option String)
    (filter : Nat) (row : WlRow) : Option (String × RpcWorkloadInfo) :=
  let kind := rpcKindName row.kind
  let wlInfo : RpcWorkloadInfo :=
    { name := row.name
      nspace := row.nspace
      workloadResourceType := kind
      uid := row.info.uid
      notInterceptableReason :=
        if row.info.state = WState.available then "" else stateName row.info.state
      interceptInfos := (iMap row.name).getD []
      ingestInfos := (gMap row.name).getD []
      agentVersion := (sMap row.name).getD "" }
  let filterMatch :=
    filterMatchOf (iMap row.name).isSome (gMap row.name).isSome (sMap row.name).isSome
  if filter ≠ 0 ∧ filter &&& filterMatch = 0 then
    none
  else
    some (wlKeyString kind row.name row.nspace, wlInfo)

/-- Go map insert with overwrite semantics, on an association list. -/
def insertAL (m : List (String × RpcWorkloadInfo)) (k : String) (v : RpcWorkloadInfo) :
    List (String × RpcWorkloadInfo) :=
  if m.any (fun p => p.1 == k) then
    m.map fun p => if p.1 == k then (k, v) else p
  else
    m ++ [(k, v)]

/-- One step of filling the `wiMap` of `getInfosForWorkloads`. -/
def wiStep (iMap gMap : String → Option (List String)) (sMap : String → Option String)
    (filter : Nat) (m : List (String × RpcWorkloadInfo)) (row : WlRow) :
    List (String × RpcWorkloadInfo) :=
  match mkWlInfo iMap gMap sMap filter row with
  | none => m
  | some kv => insertAL m kv.1 kv.2

/-- The `wiMap` of `getInfosForWorkloads` after processing all rows. -/
def buildWiMap (iMap gMap : String → Option (List String)) (sMap : String → Option String)
    (filter : Nat) (rows : List WlRow) : List (String × RpcWorkloadInfo) :=
  rows.foldl (wiStep iMap gMap sMap filter) []

/-- Ordering used by the final `sort.Slice` (source line 633): compare
workload names. -/
def wlNameLE (a b : RpcWorkloadInfo) : Prop := a.name ≤ b.name

instance : DecidableRel wlNameLE :=
  fun a b => inferInstanceAs (Decidable (a.name ≤ b.name))

instance : IsTotal RpcWorkloadInfo wlNameLE :=
  ⟨fun a b => le_total a.name b.name⟩

instance : IsTrans RpcWorkloadInfo wlNameLE :=
  ⟨fun _ _ _ h₁ h₂ => le_trans h₁ h₂⟩

/-- Translation of `session.getInfosForWorkloads` (source lines 591-635): iterate the
workloads of the given namespaces, build and filter entries into a map
keyed by `"kind:name.namespace"`, collect the values, and sort them by
workload name (Go's `sort.Slice` by name is modelled by insertion sort over
the by-name relation). -/
def getInfosForWorkloads (wls : WorkloadsMap) (namespaces : List String)
    (iMap gMap : String → Option (List String)) (sMap : String → Option String)
    (filter : Nat) : List RpcWorkloadInfo :=
  ((buildWiMap iMap gMap sMap filter (eachWorkload wls namespaces)).map Prod.snd).insertionSort
    wlNameLE

/-- A successfully built entry carries its own map key, its row's name, and
the `NotInterceptableReason` dictated by the row's state. -/
theorem mkWlInfo_some_props (iMap gMap : String → Option (List String))
    (sMap : String → Option String) (filter : Nat) (row : WlRow)
    (k : String) (v : RpcWorkloadInfo)
    (h : mkWlInfo iMap gMap sMap filter row = some (k, v)) :
    k = keyOf v ∧ v.name = row.name ∧
      v.notInterceptableReason =
        (if row.info.state = WState.available then "" else stateName row.info.state) := by
  simp only [mkWlInfo] at h
  split at h
  · cases h
  · rw [Option.some_inj] at h
    injection h with hk hv
    subst hk
    subst hv
    exact ⟨rfl, rfl, rfl⟩

/-- Emission criterion of `mkWlInfo`: the entry survives the filter iff
`filter == 0` or `filter & filterMatch != 0`. -/
theorem mkWlInfo_isSome_iff (iMap gMap : String → Option (List String))
    (sMap : String → Option String) (filter : Nat) (row : WlRow) :
    (mkWlInfo iMap gMap sMap filter row).isSome = true ↔
      (filter = 0 ∨
        filter &&& filterMatchOf (iMap row.name).isSome (gMap row.name).isSome
            (sMap row.name).isSome ≠ 0) := by
  simp only [mkWlInfo]
  split
  · next hc =>
    simp only [Option.isSome_none, Bool.false_eq_true, false_iff]
    tauto
  · next hc =>
    simp only [Option.isSome_some, true_iff]
    tauto

/-- Insertion via `insertAL` preserves distinctness of the keys. -/
theorem insertAL_keys_nodup (m : List (String × RpcWorkloadInfo)) (k : String)
    (v : RpcWorkloadInfo) (h : (m.map Prod.fst).Nodup) :
    ((insertAL m k v).map Prod.fst).Nodup := by
  unfold insertAL
  split
  · next hany =>
    rw [List.map_map]
    have heq : ∀ p ∈ m, (Prod.fst ∘ fun p => if p.1 == k then (k, v) else p) p = Prod.fst p := by
      intro p _
      by_cases hpk : p.1 == k
      · simp only [Function.comp_apply, if_pos hpk]
        exact (eq_of_beq hpk).symm
      · simp only [Function.comp_apply, if_neg hpk]
    rw [List.map_congr_left heq]
    exact h
  · next hany =>
    rw [List.map_append, List.nodup_append]
    refine ⟨h, List.nodup_singleton k, ?_⟩
    intro a ha hak
    rw [List.map_singleton, List.mem_singleton] at hak
    subst hak
    rw [List.mem_map] at ha
    obtain ⟨p, hp, hpa⟩ := ha
    rw [List.any_eq_true] at hany
    exact hany ⟨p, hp, by simp [hpa]⟩

/-- Every element of `insertAL m k v` is either an old element or `(k, v)`. -/
theorem mem_insertAL (m : List (String × RpcWorkloadInfo)) (k : String)
    (v : RpcWorkloadInfo) (p : String × RpcWorkloadInfo)
    (h : p ∈ insertAL m k v) : p ∈ m ∨ p = (k, v) := by
  unfold insertAL at h
  split at h
  · rw [List.mem_map] at h
    obtain ⟨q, hq, hqe⟩ := h
    by_cases hqk : q.1 == k
    · rw [if_pos hqk] at hqe
      right
      exact hqe.symm
    · rw [if_neg hqk] at hqe
      left
      rw [← hqe]
      exact hq
  · rw [List.mem_append] at h
    rcases h with h | h
    · exact Or.inl h
    · rw [List.mem_singleton] at h
      exact Or.inr h

/-- Each `wiStep` either keeps the map or inserts the entry built for the row. -/
theorem wiStep_cases (iMap gMap : String → Option (List String))
    (sMap : String → Option String) (filter : Nat)
    (m : List (String × RpcWorkloadInfo)) (row : WlRow) :
    wiStep iMap gMap sMap filter m row = m ∨
      ∃ kv, mkWlInfo iMap gMap sMap filter row = some kv ∧
        wiStep iMap gMap sMap filter m row = insertAL m kv.1 kv.2 := by
  unfold wiStep
  cases h : mkWlInfo iMap gMap sMap filter row
  · exact Or.inl rfl
  · exact Or.inr ⟨_, rfl, rfl⟩

/-- Folding `wiStep` preserves key distinctness. -/
theorem foldl_wiStep_keys_nodup (iMap gMap : String → Option (List String))
    (sMap : String → Option String) (filter : Nat) :
    ∀ (rows : List WlRow) (m : List (String × RpcWorkloadInfo)),
      (m.map Prod.fst).Nodup →
      ((rows.foldl (wiStep iMap gMap sMap filter) m).map Prod.fst).Nodup := by
  intro rows
  induction rows with
  | nil => exact fun m h => h
  | cons row rest ih =>
    intro m h
    rw [List.foldl_cons]
    apply ih
    rcases wiStep_cases iMap gMap sMap filter m row with hs | ⟨kv, _, hs⟩
    · rw [hs]; exact h
    · rw [hs]; exact insertAL_keys_nodup m kv.1 kv.2 h

/-- Folding `wiStep` preserves any property that holds of the initial map
and of every entry `mkWlInfo` can build from a processed row. -/
theorem foldl_wiStep_forall (iMap gMap : String → Option (List String))
    (sMap : String → Option String) (filter : Nat)
    (P : String × RpcWorkloadInfo → Prop) :
    ∀ (rows : List WlRow) (m : List (String × RpcWorkloadInfo)),
      (∀ p ∈ m, P p) →
      (∀ row ∈ rows, ∀ kv, mkWlInfo iMap gMap sMap filter row = some kv → P kv) →
      ∀ p ∈ rows.foldl (wiStep iMap gMap sMap filter) m, P p := by
  intro rows
  induction rows with
  | nil => exact fun m hm _ p hp => hm p hp
  | cons row rest ih =>
    intro m hm hrows p hp
    rw [List.foldl_cons] at hp
    refine ih _ ?_ (fun r hr => hrows r (List.mem_cons_of_mem _ hr)) p hp
    intro q hq
    rcases wiStep_cases iMap gMap sMap filter m row with hs | ⟨kv, hkv, hs⟩
    · rw [hs] at hq
      exact hm q hq
    · rw [hs] at hq
      rcases mem_insertAL m kv.1 kv.2 q hq with h | h
      · exact hm q h
      · rw [h]
        exact hrows row (List.mem_cons_self row rest) kv hkv

/-- C4: an entry is emitted iff `filter == 0` or `filter & match != 0`, with
`match` starting at EVERYTHING and losing the INTERCEPTS / INGESTS /
INSTALLED_AGENTS bit exactly when the corresponding map lacks the workload
name; in particular filter = INTERCEPTS emits exactly the entries whose
name is in the intercept map, and filter = 0 emits every entry. -/
theorem snapshot_filter_emission (iMap gMap : String → Option (List String))
    (sMap : String → Option String) (filter : Nat) (row : WlRow) :
    ((mkWlInfo iMap gMap sMap filter row).isSome = true ↔
      (filter = 0 ∨
        filter &&& filterMatchOf (iMap row.name).isSome (gMap row.name).isSome
            (sMap row.name).isSome ≠ 0)) ∧
    ((mkWlInfo iMap gMap sMap INTERCEPTS row).isSome = true ↔
      (iMap row.name).isSome = true) ∧
    (mkWlInfo iMap gMap sMap 0 row).isSome = true := by
  refine ⟨mkWlInfo_isSome_iff iMap gMap sMap filter row, ?_, ?_⟩
  · rw [mkWlInfo_isSome_iff]
    cases hi : (iMap row.name).isSome <;>
      cases hg : (gMap row.name).isSome <;>
        cases hs : (sMap row.name).isSome <;>
          simp [filterMatchOf, clearFlag, INTERCEPTS, INGESTS, INSTALLED_AGENTS, EVERYTHING]
  · rw [mkWlInfo_isSome_iff]
    exact Or.inl rfl

/-- C7: the snapshot list is keyed uniquely by `"kind:name.namespace"` (the
rendered keys are pairwise distinct) and is sorted with workload names
non-decreasing. -/
theorem snapshot_keys_unique_and_sorted (wls : WorkloadsMap) (namespaces : List String)
    (iMap gMap : String → Option (List String)) (sMap : String → Option String)
    (filter : Nat) :
    ((getInfosForWorkloads wls namespaces iMap gMap sMap filter).map keyOf).Nodup ∧
    (getInfosForWorkloads wls namespaces iMap gMap sMap filter).Pairwise
      (fun a b => a.name ≤ b.name) := by
  constructor
  · simp only [getInfosForWorkloads, buildWiMap]
    have hkeys := foldl_wiStep_keys_nodup iMap gMap sMap filter
      (eachWorkload wls namespaces) [] (by simp)
    have hinv := foldl_wiStep_forall iMap gMap sMap filter (fun p => p.1 = keyOf p.2)
      (eachWorkload wls namespaces) [] (by simp)
      (fun row _ kv hkv => (mkWlInfo_some_props iMap gMap sMap filter row kv.1 kv.2 hkv).1)
    have h1 : (((eachWorkload wls namespaces).foldl (wiStep iMap gMap sMap filter) []).map
        Prod.snd).map keyOf
        = ((eachWorkload wls namespaces).foldl (wiStep iMap gMap sMap filter) []).map
            Prod.fst := by
      rw [List.map_map]
      exact List.map_congr_left fun p hp => (hinv p hp).symm
    have hperm := (List.perm_insertionSort wlNameLE
      (((eachWorkload wls namespaces).foldl (wiStep iMap gMap sMap filter) []).map
        Prod.snd)).map keyOf
    rw [hperm.nodup_iff, h1]
    exact hkeys
  · exact List.sorted_insertionSort wlNameLE _

/-- C9: every workload entry exported by the snapshot was built by
`mkWlInfo` from some iterated row, and its `NotInterceptableReason` is the
empty string when that row's state is Available and the state's name
otherwise. -/
theorem snapshot_not_interceptable_reason (wls : WorkloadsMap) (namespaces : List String)
    (iMap gMap : String → Option (List String)) (sMap : String → Option String)
    (filter : Nat) (wi : RpcWorkloadInfo)
    (h : wi ∈ getInfosForWorkloads wls namespaces iMap gMap sMap filter) :
    ∃ row, row ∈ eachWorkload wls namespaces ∧
      mkWlInfo iMap gMap sMap filter row = some (keyOf wi, wi) ∧
      (row.info.state = WState.available → wi.notInterceptableReason = "") ∧
      (row.info.state ≠ WState.available →
        wi.notInterceptableReason = stateName row.info.state) := by
  simp only [getInfosForWorkloads, buildWiMap] at h
  rw [List.mem_insertionSort, List.mem_map] at h
  obtain ⟨p, hp, hpw⟩ := h
  have hprov := foldl_wiStep_forall iMap gMap sMap filter
    (fun q => ∃ row, row ∈ eachWorkload wls namespaces ∧
      mkWlInfo iMap gMap sMap filter row = some q)
    (eachWorkload wls namespaces) [] (by simp)
    (fun row hr kv hkv => ⟨row, hr, hkv⟩) p hp
  obtain ⟨row, hrow, hmk⟩ := hprov
  have props := mkWlInfo_some_props iMap gMap sMap filter row p.1 p.2 hmk
  subst hpw
  refine ⟨row, hrow, ?_, ?_, ?_⟩
  · rw [← props.1]
    exact hmk
  · intro hav
    rw [props.2.2, if_pos hav]
  · intro hnav
    rw [props.2.2, if_neg hnav]

/-- Example workloads map with one Deployment `web.default` in state
Failed, used by witnesses. -/
def wlsExample : WorkloadsMap :=
  [("default", [({ kind := WlKind.deployment, name := "web" },
    { uid := "u1", state := WState.failed })])]

/-- The entry the snapshot exports from `wlsExample` with filter 0. -/
def wiExample : RpcWorkloadInfo :=
  { name := "web", nspace := "default", workloadResourceType := "DEPLOYMENT",
    uid := "u1", notInterceptableReason := "Failed" }

/-- Witness for `snapshot_not_interceptable_reason` on a one-workload map:
`Deployment web.default` in state Failed is exported with reason `Failed`. -/
theorem snapshot_not_interceptable_reason_witness :
    ∃ row, row ∈ eachWorkload wlsExample ["default"] ∧
      mkWlInfo (fun _ => none) (fun _ => none) (fun _ => none) 0 row =
        some (keyOf wiExample, wiExample) ∧
      (row.info.state = WState.available → wiExample.notInterceptableReason = "") ∧
      (row.info.state ≠ WState.available →
        wiExample.notInterceptableReason = stateName row.info.state) :=
  snapshot_not_interceptable_reason wlsExample ["default"]
    (fun _ => none) (fun _ => none) (fun _ => none) 0 wiExample (by decide)

/-- Trace of the namespace handling of `WorkloadInfoSnapshot`
(source lines 712-744). -/
structure SnapshotTrace where
  nss : List String
  earlyEmptyReturn : Bool
  agentMapPopulated : Bool
deriving DecidableEq, Repr

/-- Namespace selection of `WorkloadInfoSnapshot` (source lines 719-732):
when the filter has any of the INTERCEPTS, INGESTS, INSTALLED_AGENTS bits,
only the connected namespace is used; otherwise the requested namespaces
are mapped through `ActualNamespace` and empty results dropped. -/
def snapshotNamespaces (connected : String) (actualNamespace : String → String)
    (namespaces : List String) (filter : Nat) : List String :=
  if filter &&& (INTERCEPTS ||| INGESTS ||| INSTALLED_AGENTS) ≠ 0 then
    [connected]
  else
    (namespaces.map actualNamespace).filter fun ns => ns != ""

/-- Control flow of `WorkloadInfoSnapshot` up to the construction of the
installed-agent version map `sMap` (source lines 712-744): empty effective
namespace list returns an empty snapshot early; `sMap` is built only when
the effective list is exactly one namespace equal to the connected one. -/
def workloadInfoSnapshotTrace (connected : String) (actualNamespace : String → String)
    (namespaces : List String) (filter : Nat) : SnapshotTrace :=
  let nss := snapshotNamespaces connected actualNamespace namespaces filter
  if nss.isEmpty then
    { nss := nss, earlyEmptyReturn := true, agentMapPopulated := false }
  else
    { nss := nss, earlyEmptyReturn := false,
      agentMapPopulated :=
        match nss with
        | [n] => n == connected
        | _ => false }

/-- C8: when the filter has any of the INTERCEPTS, INGESTS, or
INSTALLED_AGENTS bits, the namespaces argument is ignored (any two argument
lists give the same trace) and the effective list is exactly the connected
namespace; and in all cases the installed-agent version map is populated
iff the effective list is exactly the single connected namespace. -/
theorem snapshot_namespace_handling (connected : String)
    (actualNamespace : String → String) (namespaces₁ namespaces₂ : List String)
    (filter : Nat)
    (hf : filter &&& (INTERCEPTS ||| INGESTS ||| INSTALLED_AGENTS) ≠ 0) :
    (workloadInfoSnapshotTrace connected actualNamespace namespaces₁ filter).nss
        = [connected] ∧
    workloadInfoSnapshotTrace connected actualNamespace namespaces₁ filter
        = workloadInfoSnapshotTrace connected actualNamespace namespaces₂ filter ∧
    (workloadInfoSnapshotTrace connected actualNamespace namespaces₁ filter).agentMapPopulated
        = true ∧
    (∀ (a₃ : String → String) (namespaces₃ : List String) (f₃ : Nat),
      (workloadInfoSnapshotTrace connected a₃ namespaces₃ f₃).agentMapPopulated = true →
      (workloadInfoSnapshotTrace connected a₃ namespaces₃ f₃).nss = [connected]) := by
  refine ⟨?_, ?_, ?_, ?_⟩
  · simp [workloadInfoSnapshotTrace, snapshotNamespaces, hf]
  · simp [workloadInfoSnapshotTrace, snapshotNamespaces, hf]
  · simp [workloadInfoSnapshotTrace, snapshotNamespaces, hf]
  · intro a₃ namespaces₃ f₃ hpop
    simp only [workloadInfoSnapshotTrace] at hpop ⊢
    by_cases he : (snapshotNamespaces connected a₃ namespaces₃ f₃).isEmpty
    · rw [if_pos he] at hpop
      cases hpop
    · rw [if_neg he] at hpop ⊢
      cases hn : snapshotNamespaces connected a₃ namespaces₃ f₃ with
      | nil => rw [hn] at he; cases he rfl
      | cons n rest =>
        cases rest with
        | nil =>
          rw [hn] at hpop
          simp only at hpop
          have : n = connected := by
            have := hpop
            simpa using this
          rw [this]
        | cons b bs =>
          rw [hn] at hpop
          simp at hpop

/-- Witness for `snapshot_namespace_handling`: with filter = INTERCEPTS the
namespaces argument `["a", "b"]` is ignored in favour of the connected
namespace `default`. -/
theorem snapshot_namespace_handling_witness :
    (workloadInfoSnapshotTrace "default" (fun n => n) ["a", "b"] INTERCEPTS).nss
        = ["default"] ∧
    (workloadInfoSnapshotTrace "default" (fun n => n) ["a", "b"] INTERCEPTS).agentMapPopulated
        = true :=
  ⟨(snapshot_namespace_handling "default" (fun n => n) ["a", "b"] [] INTERCEPTS
      (by decide)).1,
   (snapshot_namespace_handling "default" (fun n => n) ["a", "b"] [] INTERCEPTS
      (by decide)).2.2.1⟩
